import Mathlib

/-!
# Verification of the ragfs frontend against its specification

Shallow embedding of the TypeScript frontend of the ragfs repository
(`src/frontend`), covering the data model (`types/index.ts`), the API
client's SSE stream loop (`lib/api.ts`), the chat stream handler
(`app/page.tsx`), the ingestion form submit/poll logic
(`components/IngestionForm.tsx` and its unnamed variant), the results
renderer (`components/ResultsView.tsx`) and the commit list filter
(`components/CommitList.tsx`).
-/

namespace Ragfs

/-! ## Data model, from `src/frontend/types/index.ts` -/

/-- The `IngestionStatus` enum of `types/index.ts` (lines 10-15):
`PENDING = 'pending'`, `IN_PROGRESS = 'in_progress'`,
`COMPLETED = 'completed'`, `FAILED = 'failed'`. -/
inductive IngestionStatus where
  | pending
  | in_progress
  | completed
  | failed
deriving DecidableEq, Repr, Fintype

/-- The string value each `IngestionStatus` enum member is declared with
in `types/index.ts`. -/
def IngestionStatus.value : IngestionStatus → String
  | .pending => "pending"
  | .in_progress => "in_progress"
  | .completed => "completed"
  | .failed => "failed"

/-- The field names of the `QueryResponse` interface as declared in
`types/index.ts` (lines 59-63): `query`, `results`, `total_results`,
in declaration order. -/
def queryResponseFields : List String :=
  ["query", "results", "total_results"]

/-- The field names that `ResultsView` (`components/ResultsView.tsx`,
lines 109-194) reads off its `results` prop, in first-access order:
`results.total_sources` (line 110), `results.query` (line 113),
`results.answer` (line 171), `results.sources` (line 194). -/
def resultsViewConsumedFields : List String :=
  ["total_sources", "query", "answer", "sources"]

/-- The `CommitSummary` interface of `types/index.ts`. -/
structure CommitSummary where
  sha : String
  message : String
  author : String
  author_email : Option String
  date : String
  parents : List String
deriving DecidableEq, Repr

/-! ## Commit list filtering, from `components/CommitList.tsx` (lines 408-421)

```ts
const [selectedAuthor, setSelectedAuthor] = React.useState<string>('');
const filteredCommits = React.useMemo(() => {
  if (!selectedAuthor) return commits;
  return commits.filter(c => c.author === selectedAuthor);
}, [commits, selectedAuthor]);
```

`!selectedAuthor` is JavaScript falsiness on a string: it is true
exactly when `selectedAuthor` is the empty string (the "no author
selected" dropdown value). -/

/-- The `filteredCommits` memo of `CommitList`. -/
def filteredCommits (selectedAuthor : String) (commits : List CommitSummary) :
    List CommitSummary :=
  if selectedAuthor = "" then commits
  else commits.filter (fun c => c.author == selectedAuthor)

/-! ## Server-sent events, from `src/frontend/lib/api.ts`

`ApiClient.queryStream` (lines 60-123) reads the response body chunk by
chunk, splits each chunk at newlines, and for each line that begins with
`'data: '` it takes `line.substring(6)`, runs `JSON.parse` on it, calls
`onEvent(event)` with the parsed value, and returns (exiting both loops)
right after delivering an event whose `type` is `'done'` or `'error'`;
a line whose payload fails `JSON.parse` is caught, logged and skipped.

The embedding works on the in-order list of all lines of all chunks
(the chunk structure only groups lines; processing order, skipping and
the early `return` are unchanged).  `JSON.parse` of the payload is
abstracted as a `parse : String → Option (StreamEvent σ)` parameter,
`none` standing for a thrown `SyntaxError`.  The JavaScript
`line.startsWith('data: ')` / `line.substring(6)` pair is rendered as
`line.take 6 = "data: "` / `line.drop 6`. -/

/-- The event record type of the `onEvent` callback of
`ApiClient.queryStream` (`lib/api.ts` lines 62-68):
`{ type: 'sources' | 'text' | 'done' | 'error'; sources?; total_sources?;
text?; error? }`.  `σ` is the (opaque `any`) element type of `sources`. -/
structure StreamEvent (σ : Type) where
  type : String
  sources : Option (List σ) := none
  total_sources : Option Nat := none
  text : Option String := none
  error : Option String := none
deriving DecidableEq, Repr

/-- The terminal-event test of `queryStream`
(`event.type === 'done' || event.type === 'error'`, line 111). -/
def StreamEvent.isTerminal {σ : Type} (e : StreamEvent σ) : Bool :=
  e.type = "done" || e.type = "error"

/-- The sequence of values passed to `onEvent` by `queryStream`'s
read loop, given the in-order list of all received lines.  A `data: `
line that parses is delivered; if it is terminal the function returns
(so the remaining lines produce nothing); a `data: ` line that fails to
parse is skipped; any other line is ignored. -/
def processLines {σ : Type} (parse : String → Option (StreamEvent σ)) :
    List String → List (StreamEvent σ)
  | [] => []
  | line :: rest =>
    if line.take 6 = "data: " then
      match parse (line.drop 6) with
      | some e => if e.isTerminal then [e] else e :: processLines parse rest
      | none => processLines parse rest
    else
      processLines parse rest

/-! ## The chat stream handler, from `src/frontend/app/page.tsx`

`handleSendMessage` (lines 94-188) keeps a local `fullText` accumulator
and an assistant `Message` (`content`, `sources`, `isStreaming`) that it
updates per event: `sources` stores `event.sources || []`; `text`
appends `event.text || ''` to `fullText` and writes the result to
`content`; `done` clears `isStreaming`; `error` replaces `content` with
`` `Error: ${event.error}` `` and clears `isStreaming`. -/

/-- The assistant `Message` fields that the streaming callback of
`handleSendMessage` mutates. -/
structure AssistantMessage (σ : Type) where
  content : String
  sources : List σ
  isStreaming : Bool
deriving DecidableEq, Repr

/-- The state of `handleSendMessage`'s callback: the local `fullText`
accumulator plus the assistant message. -/
structure HandlerState (σ : Type) where
  fullText : String
  msg : AssistantMessage σ
deriving DecidableEq, Repr

/-- The assistant message placeholder created before streaming starts
(`content: ''`, `sources: []`, `isStreaming: true`), with `fullText`
initialised to `''`. -/
def initialHandlerState (σ : Type) : HandlerState σ :=
  { fullText := "", msg := { content := "", sources := [], isStreaming := true } }

/-- One step of the `onEvent` callback of `handleSendMessage`
(`app/page.tsx` lines 125-170). -/
def handleStreamEvent {σ : Type} (st : HandlerState σ) (e : StreamEvent σ) :
    HandlerState σ :=
  if e.type = "sources" then
    { st with msg := { st.msg with sources := e.sources.getD [] } }
  else if e.type = "text" then
    let fullText := st.fullText ++ e.text.getD ""
    { fullText := fullText, msg := { st.msg with content := fullText } }
  else if e.type = "done" then
    { st with msg := { st.msg with isStreaming := false } }
  else if e.type = "error" then
    { st with msg := { st.msg with
        content := "Error: " ++ e.error.getD "undefined",
        isStreaming := false } }
  else st

/-- The handler state after a sequence of delivered events. -/
def runHandler {σ : Type} (events : List (StreamEvent σ)) : HandlerState σ :=
  events.foldl handleStreamEvent (initialHandlerState σ)

/-- The concatenation, in delivery order, of the payloads of the
`text` events of a delivered sequence (the reconstruction the spec
describes; empty payload for a `text` event with no `text` field,
matching `event.text || ''`). -/
def textConcat {σ : Type} : List (StreamEvent σ) → String
  | [] => ""
  | e :: rest => (if e.type = "text" then e.text.getD "" else "") ++ textConcat rest

/-! ## The results renderer, from `src/frontend/components/ResultsView.tsx`

`ResultsView` (lines 109-194) takes a prop it reads the fields
`total_sources`, `query`, `answer` and `sources` from (although its
declared prop type is the `QueryResponse` interface, which has none of
`answer`, `sources`, `total_sources`).  If `results.total_sources === 0`
it renders only an info alert `No results found for "..."`; otherwise it
renders the AI-answer panel (`results.answer`) followed by one accordion
per entry of `results.sources`. -/

/-- The runtime shape `ResultsView` actually reads from its `results`
prop.  `σ` is the element type of `sources`. -/
structure ResultsViewInput (σ : Type) where
  query : String
  answer : String
  sources : List σ
  total_sources : Nat
deriving DecidableEq, Repr

/-- Abstraction of what `ResultsView` renders: either only the
no-results alert, or the answer panel plus the source accordions. -/
inductive RenderedResults (σ : Type) where
  | noResults (message : String)
  | answerAndSources (answer : String) (totalSources : Nat) (sources : List σ)
deriving DecidableEq, Repr

/-- The text of the zero-result alert of `ResultsView` (lines 112-114). -/
def noResultsMessage (query : String) : String :=
  "No results found for \"" ++ query ++
    "\". Try a different search query or ensure repositories have been ingested."

/-- The rendering decision of `ResultsView` (lines 109-194). -/
def resultsView {σ : Type} (r : ResultsViewInput σ) : RenderedResults σ :=
  if r.total_sources = 0 then .noResults (noResultsMessage r.query)
  else .answerAndSources r.answer r.total_sources r.sources

/-- The answer text present in a rendering, if any. -/
def renderedAnswer {σ : Type} : RenderedResults σ → Option String
  | .noResults _ => none
  | .answerAndSources a _ _ => some a

/-- The source entries present in a rendering. -/
def renderedSources {σ : Type} : RenderedResults σ → List σ
  | .noResults _ => []
  | .answerAndSources _ _ s => s

/-! ## Ingestion submission

Two `IngestionForm` components exist in the repository: the one at
`src/frontend/components/IngestionForm.tsx`, and an unnamed variant
(`src/unnamed/part_000`, second document) used by `app/page.tsx`'s
two-argument `onSuccess` signature.  Both build the
`POST /api/ingest` body from the form state; only the unnamed variant
validates the content flags before sending. -/

/-- The `IngestionRequest` body sent to `POST /api/ingest`
(`types/index.ts` lines 17-23).  `max_commits` is a JavaScript
`number` coming from `parseInt`; `none` models `NaN` (an empty or
non-numeric input), which `JSON.stringify` serialises as `null`. -/
structure IngestionRequest where
  repo_url : String
  include_commits : Bool
  include_issues : Bool
  include_prs : Bool
  max_commits : Option Int
deriving DecidableEq, Repr

/-- What a submission attempt does before any network reply arrives:
either it issues the ingest request, or it is rejected client-side with
an error message and no request is sent. -/
inductive SubmitAction where
  | sendRequest (req : IngestionRequest)
  | reject (errorMessage : String)
deriving DecidableEq, Repr

namespace IngestionForm

/-- The form state of `components/IngestionForm.tsx` (lines 26-35).
`maxCommits` holds `parseInt(e.target.value)`, so `none` models `NaN`. -/
structure FormState where
  repoUrl : String
  includeCommits : Bool
  includeIssues : Bool
  includePrs : Bool
  maxCommits : Option Int
deriving DecidableEq, Repr

/-- The `useState` defaults of `components/IngestionForm.tsx`:
`repoUrl ''`, all three flags `true`, `maxCommits 100`. -/
def initialState : FormState :=
  { repoUrl := "", includeCommits := true, includeIssues := true,
    includePrs := true, maxCommits := some 100 }

/-- `handleSubmit` of `components/IngestionForm.tsx` (lines 37-60), up
to the point the request leaves: it performs no validation of the
content flags or of `maxCommits` and always posts the state verbatim. -/
def handleSubmit (st : FormState) : SubmitAction :=
  .sendRequest
    { repo_url := st.repoUrl, include_commits := st.includeCommits,
      include_issues := st.includeIssues, include_prs := st.includePrs,
      max_commits := st.maxCommits }

end IngestionForm

namespace UnnamedIngestionForm

/-- The form state of the unnamed `IngestionForm` variant
(`src/unnamed/part_000`).  Its `maxCommits` change handler is
`parseInt(e.target.value) || 0`, so the state is always a number. -/
structure FormState where
  repoUrl : String
  includeCommits : Bool
  includeIssues : Bool
  includePrs : Bool
  maxCommits : Int
deriving DecidableEq, Repr

/-- The `useState` defaults of the unnamed variant: `repoUrl ''`,
`includeCommits true`, `includeIssues false`, `includePrs false`,
`maxCommits 100`. -/
def initialState : FormState :=
  { repoUrl := "", includeCommits := true, includeIssues := false,
    includePrs := false, maxCommits := 100 }

/-- `handleSubmit` of the unnamed variant (`part_000` lines 108-140):
if no content flag is set it sets the validation error and returns
before any request; otherwise it posts the state, with
`max_commits: includeCommits ? maxCommits : 0`. -/
def handleSubmit (st : FormState) : SubmitAction :=
  if !st.includeCommits && !st.includeIssues && !st.includePrs then
    .reject "Please select at least one content type to ingest"
  else
    .sendRequest
      { repo_url := st.repoUrl, include_commits := st.includeCommits,
        include_issues := st.includeIssues, include_prs := st.includePrs,
        max_commits := some (if st.includeCommits then st.maxCommits else 0) }

end UnnamedIngestionForm

/-! ## Status polling, from `components/IngestionForm.tsx` (lines 62-115)

`pollStatus` runs a 2-second interval; each tick calls
`getIngestionStatus`.  On a reply it stores status and progress, then:
`completed` → stop polling, clear submitting, schedule the success
callback; `failed` → stop, clear submitting, set the error message;
otherwise keep polling.  On a thrown request error: if
`err.response?.status === 404` it stops polling, clears submitting,
schedules the success callback, sets the status to `COMPLETED` and sets
no error; any other error stops polling and sets a generic error.
`π` abstracts the untyped `progress` record. -/

/-- The fields of `IngestionStatusResponse` that `pollStatus` reads. -/
structure StatusResponse (π : Type) where
  status : IngestionStatus
  progress : π
  error_message : Option String
deriving DecidableEq, Repr

/-- The outcome of one `getIngestionStatus` call: a reply, or a thrown
request error carrying `err.response?.status` (`none` when there was no
HTTP response at all). -/
inductive PollOutcome (π : Type) where
  | ok (resp : StatusResponse π)
  | requestError (httpStatus : Option Nat)
deriving DecidableEq, Repr

/-- The observable effect of one tick of `pollStatus`: whether the
interval is cleared, the `isSubmitting` flag afterwards, the values
written to the `status` / `progress` / `error` states (`none` = not
written), and whether the `onSuccess` callback is scheduled. -/
structure PollEffect (π : Type) where
  stopPolling : Bool
  isSubmittingAfter : Bool
  statusSet : Option IngestionStatus
  progressSet : Option π
  errorSet : Option String
  successScheduled : Bool
deriving DecidableEq, Repr

/-- One tick of `pollStatus` (`components/IngestionForm.tsx`
lines 63-113). -/
def pollTick {π : Type} : PollOutcome π → PollEffect π
  | .ok resp =>
    if resp.status = .completed then
      { stopPolling := true, isSubmittingAfter := false,
        statusSet := some resp.status, progressSet := some resp.progress,
        errorSet := none, successScheduled := true }
    else if resp.status = .failed then
      { stopPolling := true, isSubmittingAfter := false,
        statusSet := some resp.status, progressSet := some resp.progress,
        errorSet := some (resp.error_message.getD "Ingestion failed"),
        successScheduled := false }
    else
      { stopPolling := false, isSubmittingAfter := true,
        statusSet := some resp.status, progressSet := some resp.progress,
        errorSet := none, successScheduled := false }
  | .requestError httpStatus =>
    if httpStatus = some 404 then
      { stopPolling := true, isSubmittingAfter := false,
        statusSet := some .completed, progressSet := none,
        errorSet := none, successScheduled := true }
    else
      { stopPolling := true, isSubmittingAfter := false,
        statusSet := none, progressSet := none,
        errorSet := some "Failed to check ingestion status",
        successScheduled := false }

/-! ## Concrete demonstration inputs (used by witnesses) -/

/-- A concrete stand-in for `JSON.parse` on SSE payloads: `"D"` parses
to a `done` event, `"T"` to a `text` event carrying `"x"`, anything
else fails to parse. -/
def demoParse : String → Option (StreamEvent Unit)
  | "D" => some { type := "done" }
  | "T" => some { type := "text", text := some "x" }
  | _ => none

/-- The `text` event `demoParse` produces for payload `"T"`. -/
def demoText : StreamEvent Unit := { type := "text", text := some "x" }

/-- The `done` event `demoParse` produces for payload `"D"`. -/
def demoDone : StreamEvent Unit := { type := "done" }

end Ragfs

namespace Ragfs

/-! ## Theorems -/

/-- C1, counterexample: the non-streaming query response type is NOT a
record with exactly the fields `answer`, `sources`, `total_sources`:
the `QueryResponse` interface that `ApiClient.query` returns declares
no such field set (in any order). -/
theorem queryResponse_not_answer_sources_counterexample :
    ¬ List.Perm queryResponseFields ["answer", "sources", "total_sources"] := by
  decide

/-- C1, amended: the `QueryResponse` produced by `ApiClient.query`
declares exactly the fields `query`, `results[]`, `total_results`,
while `ResultsView` reads the fields `total_sources`, `query`, `answer`
and `sources` off that value — three of which (`answer`, `sources`,
`total_sources`) are absent from the declared interface. -/
theorem queryResponse_declared_vs_consumed_fields :
    queryResponseFields = ["query", "results", "total_results"] ∧
    resultsViewConsumedFields = ["total_sources", "query", "answer", "sources"] ∧
    "answer" ∈ resultsViewConsumedFields ∧ "answer" ∉ queryResponseFields ∧
    "sources" ∈ resultsViewConsumedFields ∧ "sources" ∉ queryResponseFields ∧
    "total_sources" ∈ resultsViewConsumedFields ∧
    "total_sources" ∉ queryResponseFields := by
  decide

/-- C2, counterexample: the status set is not
`{pending, running, completed, failed}`: the enum member
`IN_PROGRESS` has the value `'in_progress'`, which is outside that set,
and no status has the value `'running'`. -/
theorem ingestionStatus_running_counterexample :
    IngestionStatus.in_progress.value = "in_progress" ∧
    "in_progress" ∉ ["pending", "running", "completed", "failed"] ∧
    ∀ s : IngestionStatus, s.value ≠ "running" := by
  decide

/-- C2, amended: every ingestion status is exactly one element of the
four-element set `{pending, in_progress, completed, failed}`: each enum
member's value lies in that list, the list has no duplicates, and every
element of the list is the value of some member. -/
theorem ingestionStatus_exactly_four :
    (∀ s : IngestionStatus,
      s.value ∈ ["pending", "in_progress", "completed", "failed"]) ∧
    List.Nodup ["pending", "in_progress", "completed", "failed"] ∧
    IngestionStatus.pending.value = "pending" ∧
    IngestionStatus.in_progress.value = "in_progress" ∧
    IngestionStatus.completed.value = "completed" ∧
    IngestionStatus.failed.value = "failed" := by
  decide

/-- C5, counterexample: `handleSubmit` of
`components/IngestionForm.tsx` does NOT reject a submission whose three
content flags are all false: with `include_commits = include_issues =
include_prs = false` it still issues the ingest request. -/
theorem ingestion_all_flags_false_counterexample :
    IngestionForm.handleSubmit
      { repoUrl := "https://github.com/owner/repo", includeCommits := false,
        includeIssues := false, includePrs := false, maxCommits := some 100 }
      = SubmitAction.sendRequest
        { repo_url := "https://github.com/owner/repo", include_commits := false,
          include_issues := false, include_prs := false,
          max_commits := some 100 } := by
  decide

/-- C5, amended: only the unnamed `IngestionForm` variant
(`src/unnamed/part_000`) rejects an all-flags-false submission with the
validation error "Please select at least one content type to ingest"
before any ingest request is issued; the
`components/IngestionForm.tsx` variant performs no such client-side
validation and sends the request. -/
theorem unnamed_ingestion_all_flags_false_rejected
    (st : UnnamedIngestionForm.FormState)
    (hc : st.includeCommits = false) (hi : st.includeIssues = false)
    (hp : st.includePrs = false) :
    UnnamedIngestionForm.handleSubmit st =
      SubmitAction.reject "Please select at least one content type to ingest" := by
  simp [UnnamedIngestionForm.handleSubmit, hc, hi, hp]

/-- C5, witness for the amended theorem at a concrete all-false state. -/
theorem unnamed_ingestion_all_flags_false_rejected_witness :
    UnnamedIngestionForm.handleSubmit
      { repoUrl := "https://github.com/owner/repo", includeCommits := false,
        includeIssues := false, includePrs := false, maxCommits := 100 }
      = SubmitAction.reject "Please select at least one content type to ingest" :=
  unnamed_ingestion_all_flags_false_rejected _ rfl rfl rfl

/-- C6, counterexample: a request submitted with commit ingestion
requested can carry `max_commits = 0 < 1`: `handleSubmit` of
`components/IngestionForm.tsx` posts the `maxCommits` state verbatim,
so the state `0` (typed into the number field) yields a request with
`include_commits = true` and `max_commits = 0`. -/
theorem maxCommits_below_one_counterexample :
    IngestionForm.handleSubmit
      { repoUrl := "https://github.com/owner/repo", includeCommits := true,
        includeIssues := false, includePrs := false, maxCommits := some 0 }
      = SubmitAction.sendRequest
        { repo_url := "https://github.com/owner/repo", include_commits := true,
          include_issues := false, include_prs := false,
          max_commits := some 0 } ∧
    ¬ (1 ≤ (0 : Int)) := by
  exact ⟨rfl, by decide⟩

/-- C6, amended: every ingestion request submitted by
`components/IngestionForm.tsx` carries the form's `maxCommits` state
verbatim as `max_commits` (no `≥ 1` validation is performed in code;
the lower bound exists only as the HTML `min: 1` attribute of the
number input), and the default state is `100 ≥ 1`, so a request built
from an untouched form does satisfy `max_commits ≥ 1`. -/
theorem maxCommits_passthrough (st : IngestionForm.FormState)
    (req : IngestionRequest)
    (h : IngestionForm.handleSubmit st = SubmitAction.sendRequest req) :
    req.max_commits = st.maxCommits ∧
    IngestionForm.initialState.maxCommits = some 100 ∧ 1 ≤ (100 : Int) := by
  simp only [IngestionForm.handleSubmit, SubmitAction.sendRequest.injEq] at h
  refine ⟨?_, rfl, by decide⟩
  rw [← h]

/-- C6, witness for the amended theorem at the initial form state. -/
theorem maxCommits_passthrough_witness :
    IngestionForm.initialState.maxCommits = some 100 ∧ 1 ≤ (100 : Int) :=
  (maxCommits_passthrough IngestionForm.initialState
    { repo_url := "", include_commits := true, include_issues := true,
      include_prs := true, max_commits := some 100 } rfl).2

/-- C7: for every query response with `total_sources = 0`, `ResultsView`
renders only the "No results found" alert: the rendering is the
no-results message, contains no answer text and no source entries. -/
theorem resultsView_zero_sources_fail_closed {σ : Type}
    (r : ResultsViewInput σ) (h : r.total_sources = 0) :
    resultsView r = RenderedResults.noResults (noResultsMessage r.query) ∧
    renderedAnswer (resultsView r) = none ∧
    renderedSources (resultsView r) = [] := by
  simp [resultsView, h, renderedAnswer, renderedSources]

/-- C7, witness at a concrete zero-source response. -/
theorem resultsView_zero_sources_fail_closed_witness :
    resultsView (⟨"q", "fabricated", [()], 0⟩ : ResultsViewInput Unit)
      = RenderedResults.noResults (noResultsMessage "q") ∧
    renderedAnswer
      (resultsView (⟨"q", "fabricated", [()], 0⟩ : ResultsViewInput Unit))
      = none ∧
    renderedSources
      (resultsView (⟨"q", "fabricated", [()], 0⟩ : ResultsViewInput Unit))
      = [] :=
  resultsView_zero_sources_fail_closed _ rfl

/-- C8: a status poll that fails with HTTP 404 makes `pollStatus` stop
polling, clear the submitting flag, set the displayed status to
`completed`, schedule the success callback, and set no error message. -/
theorem poll_404_surfaced_as_success {π : Type} :
    pollTick (PollOutcome.requestError (π := π) (some 404)) =
      { stopPolling := true, isSubmittingAfter := false,
        statusSet := some IngestionStatus.completed, progressSet := none,
        errorSet := none, successScheduled := true } := rfl

/-- C8, witness at the concrete progress type `Unit`. -/
theorem poll_404_surfaced_as_success_witness :
    pollTick (PollOutcome.requestError (π := Unit) (some 404)) =
      { stopPolling := true, isSubmittingAfter := false,
        statusSet := some IngestionStatus.completed, progressSet := none,
        errorSet := none, successScheduled := true } :=
  poll_404_surfaced_as_success

/-- Helper: a line that does not begin with `data: ` is ignored. -/
theorem processLines_cons_notData {σ : Type}
    {parse : String → Option (StreamEvent σ)} {line : String}
    {rest : List String} (h : ¬ line.take 6 = "data: ") :
    processLines parse (line :: rest) = processLines parse rest := by
  simp [processLines, h]

/-- Helper: a `data: ` line whose payload fails to parse is skipped. -/
theorem processLines_cons_badParse {σ : Type}
    {parse : String → Option (StreamEvent σ)} {line : String}
    {rest : List String} (h : line.take 6 = "data: ")
    (hp : parse (line.drop 6) = none) :
    processLines parse (line :: rest) = processLines parse rest := by
  simp [processLines, h, hp]

/-- Helper: a `data: ` line parsing to a terminal event is delivered
and ends the stream. -/
theorem processLines_cons_terminal {σ : Type}
    {parse : String → Option (StreamEvent σ)} {line : String}
    {rest : List String} {e : StreamEvent σ} (h : line.take 6 = "data: ")
    (hp : parse (line.drop 6) = some e) (ht : e.isTerminal = true) :
    processLines parse (line :: rest) = [e] := by
  simp [processLines, h, hp, ht]

/-- Helper: a `data: ` line parsing to a non-terminal event is
delivered and reading continues. -/
theorem processLines_cons_ok {σ : Type}
    {parse : String → Option (StreamEvent σ)} {line : String}
    {rest : List String} {e : StreamEvent σ} (h : line.take 6 = "data: ")
    (hp : parse (line.drop 6) = some e) (ht : e.isTerminal = false) :
    processLines parse (line :: rest) = e :: processLines parse rest := by
  simp [processLines, h, hp, ht]

/-- C3: once `queryStream` delivers an event whose type is `done` or
`error` to `onEvent`, it never invokes `onEvent` again and stops
reading the stream: in the delivered sequence, no event follows a
terminal event. -/
theorem queryStream_stops_after_terminal {σ : Type}
    (parse : String → Option (StreamEvent σ)) (lines : List String)
    (pre post : List (StreamEvent σ)) (e : StreamEvent σ)
    (heq : processLines parse lines = pre ++ e :: post)
    (hterm : e.isTerminal = true) :
    post = [] := by
  induction lines generalizing pre with
  | nil => simp [processLines] at heq
  | cons line rest ih =>
    by_cases hd : line.take 6 = "data: "
    · cases hp : parse (line.drop 6) with
      | none =>
        rw [processLines_cons_badParse hd hp] at heq
        exact ih pre heq
      | some e' =>
        cases ht : e'.isTerminal with
        | false =>
          rw [processLines_cons_ok hd hp ht] at heq
          cases pre with
          | nil =>
            simp only [List.nil_append, List.cons.injEq] at heq
            rw [← heq.1] at hterm
            rw [hterm] at ht
            exact Bool.noConfusion ht
          | cons x pre' =>
            simp only [List.cons_append, List.cons.injEq] at heq
            exact ih pre' heq.2
        | true =>
          rw [processLines_cons_terminal hd hp ht] at heq
          cases pre with
          | nil =>
            simp only [List.nil_append, List.cons.injEq] at heq
            exact heq.2.symm
          | cons x pre' =>
            simp only [List.cons_append, List.cons.injEq] at heq
            simp at heq
    · rw [processLines_cons_notData hd] at heq
      exact ih pre heq

/-- C3, witness: with a concrete parser and line list the delivered
sequence ends at the `done` event (the third line is never read), and
the theorem applies with the terminal event in final position. -/
theorem queryStream_stops_after_terminal_witness :
    processLines demoParse ["data: T", "data: D", "data: T"]
      = [demoText, demoDone] ∧
    ([] : List (StreamEvent Unit)) = [] :=
  ⟨by decide,
   queryStream_stops_after_terminal demoParse ["data: T", "data: D", "data: T"]
     [demoText] [] demoDone (by decide) (by decide)⟩

/-- C9: `onEvent` is invoked only with values parsed from received
lines that begin with `data: ` (first conjunct), and a `data: ` line
whose payload fails to parse is skipped while reading continues — the
delivered sequence is exactly that of the remaining lines, and no
exception propagates since processing is total (second conjunct). -/
theorem queryStream_events_from_data_lines {σ : Type}
    (parse : String → Option (StreamEvent σ)) :
    (∀ (lines : List String) (e : StreamEvent σ),
      e ∈ processLines parse lines →
      ∃ line, line ∈ lines ∧ line.take 6 = "data: " ∧
        parse (line.drop 6) = some e) ∧
    (∀ (line : String) (rest : List String),
      line.take 6 = "data: " → parse (line.drop 6) = none →
      processLines parse (line :: rest) = processLines parse rest) := by
  constructor
  · intro lines
    induction lines with
    | nil => intro e he; simp [processLines] at he
    | cons line rest ih =>
      intro e he
      by_cases hd : line.take 6 = "data: "
      · cases hp : parse (line.drop 6) with
        | none =>
          rw [processLines_cons_badParse hd hp] at he
          obtain ⟨l, hl, h1, h2⟩ := ih e he
          exact ⟨l, List.mem_cons_of_mem _ hl, h1, h2⟩
        | some e' =>
          cases ht : e'.isTerminal with
          | true =>
            rw [processLines_cons_terminal hd hp ht, List.mem_singleton] at he
            exact ⟨line, List.mem_cons_self _ _, hd, by rw [he]; exact hp⟩
          | false =>
            rw [processLines_cons_ok hd hp ht] at he
            rcases List.mem_cons.mp he with he | he
            · exact ⟨line, List.mem_cons_self _ _, hd, by rw [he]; exact hp⟩
            · obtain ⟨l, hl, h1, h2⟩ := ih e he
              exact ⟨l, List.mem_cons_of_mem _ hl, h1, h2⟩
      · rw [processLines_cons_notData hd] at he
        obtain ⟨l, hl, h1, h2⟩ := ih e he
        exact ⟨l, List.mem_cons_of_mem _ hl, h1, h2⟩
  · intro line rest hd hp
    exact processLines_cons_badParse hd hp

/-- C9, witness: the delivered `text` event of a concrete stream comes
from its `data: ` line, and a `data: ` line with an unparsable payload
is skipped with processing continuing on the rest. -/
theorem queryStream_events_from_data_lines_witness :
    (∃ line, line ∈ ["data: T"] ∧ line.take 6 = "data: " ∧
      demoParse (line.drop 6) = some demoText) ∧
    processLines demoParse ["data: bad", "data: T"]
      = processLines demoParse ["data: T"] :=
  ⟨(queryStream_events_from_data_lines demoParse).1 ["data: T"] demoText
      (by decide),
   (queryStream_events_from_data_lines demoParse).2 "data: bad" ["data: T"]
      (by decide) (by decide)⟩

/-- C4, counterexample: when the terminal event is `error`, the
assistant message's final content is the error banner, not the
concatenation of the preceding `text` payloads. -/
theorem streamed_answer_error_counterexample :
    (runHandler [(⟨"text", none, none, some "a", none⟩ : StreamEvent Unit),
        ⟨"error", none, none, none, some "boom"⟩]).msg.content
      ≠ textConcat [(⟨"text", none, none, some "a", none⟩ : StreamEvent Unit),
        ⟨"error", none, none, none, some "boom"⟩] := by
  decide

/-- Helper for C4: folding the stream handler over error-free events
keeps `content = fullText` and appends exactly the `text` payloads. -/
theorem handler_content_invariant {σ : Type} (events : List (StreamEvent σ)) :
    ∀ st : HandlerState σ, (∀ e ∈ events, e.type ≠ "error") →
      st.msg.content = st.fullText →
      (events.foldl handleStreamEvent st).msg.content
        = st.fullText ++ textConcat events := by
  induction events with
  | nil =>
    intro st _ hinv
    simpa [textConcat] using hinv
  | cons e rest ih =>
    intro st hne hinv
    have hne' : ∀ x ∈ rest, x.type ≠ "error" :=
      fun x hx => hne x (List.mem_cons_of_mem _ hx)
    have heType : e.type ≠ "error" := hne e (List.mem_cons_self _ _)
    have hft : (handleStreamEvent st e).fullText
        = st.fullText ++ (if e.type = "text" then e.text.getD "" else "") := by
      by_cases hs : e.type = "sources"
      · simp [handleStreamEvent, hs]
      · by_cases htx : e.type = "text"
        · simp [handleStreamEvent, hs, htx]
        · by_cases hdn : e.type = "done"
          · simp [handleStreamEvent, hs, htx, hdn]
          · simp [handleStreamEvent, hs, htx, hdn, heType]
    have hinv' : (handleStreamEvent st e).msg.content
        = (handleStreamEvent st e).fullText := by
      by_cases hs : e.type = "sources"
      · simpa [handleStreamEvent, hs] using hinv
      · by_cases htx : e.type = "text"
        · simp [handleStreamEvent, hs, htx]
        · by_cases hdn : e.type = "done"
          · simpa [handleStreamEvent, hs, htx, hdn] using hinv
          · simpa [handleStreamEvent, hs, htx, hdn, heType] using hinv
    rw [List.foldl_cons, ih _ hne' hinv', hft, textConcat,
      String.append_assoc]

/-- C4, amended: for every sequence of streaming events delivered to
the chat handler that contains no `error` event, the assistant
message's final content equals the concatenation, in delivery order, of
the payloads of all `text` events — the streamed answer reconstructs
the full answer; if an `error` event is delivered the content is
replaced by the error banner instead. -/
theorem streamed_answer_reconstructs {σ : Type}
    (events : List (StreamEvent σ))
    (hne : ∀ e ∈ events, e.type ≠ "error") :
    (runHandler events).msg.content = textConcat events := by
  have h := handler_content_invariant events (initialHandlerState σ) hne rfl
  simpa [runHandler, initialHandlerState] using h

/-- C4, witness: a concrete error-free stream (`sources`, two `text`
fragments, `done`) reconstructs the full answer. -/
theorem streamed_answer_reconstructs_witness :
    (runHandler [(⟨"sources", some [], some 2, none, none⟩ : StreamEvent Unit),
        ⟨"text", none, none, some "Hel", none⟩,
        ⟨"text", none, none, some "lo", none⟩,
        ⟨"done", none, none, none, none⟩]).msg.content
      = textConcat
        [(⟨"sources", some [], some 2, none, none⟩ : StreamEvent Unit),
        ⟨"text", none, none, some "Hel", none⟩,
        ⟨"text", none, none, some "lo", none⟩,
        ⟨"done", none, none, none, none⟩] :=
  streamed_answer_reconstructs _ (by decide)

/-- C10: with no author selected the displayed commit list is the input
list unchanged; with author `a` selected it is exactly the input
commits whose author is `a` (a sublist of the input, so in the original
relative order, containing precisely the commits authored by `a`). -/
theorem commitList_author_filter (commits : List CommitSummary) (a : String)
    (h : a ≠ "") :
    filteredCommits "" commits = commits ∧
    filteredCommits a commits = commits.filter (fun c => c.author == a) ∧
    List.Sublist (filteredCommits a commits) commits ∧
    ∀ c : CommitSummary,
      c ∈ filteredCommits a commits ↔ c ∈ commits ∧ c.author = a := by
  refine ⟨by simp [filteredCommits], by simp [filteredCommits, h], ?_, ?_⟩
  · rw [filteredCommits, if_neg h]
    exact List.filter_sublist _
  · intro c
    rw [filteredCommits, if_neg h]
    simp [List.mem_filter]

/-- C10, witness on a concrete two-author commit list. -/
theorem commitList_author_filter_witness :
    filteredCommits "alice"
      [{ sha := "a1", message := "m1", author := "alice", author_email := none,
         date := "d1", parents := [] },
       { sha := "b1", message := "m2", author := "bob", author_email := none,
         date := "d2", parents := ["a1"] }]
      = [{ sha := "a1", message := "m1", author := "alice",
           author_email := none, date := "d1", parents := [] }] ∧
    filteredCommits ""
      [{ sha := "a1", message := "m1", author := "alice", author_email := none,
         date := "d1", parents := [] }]
      = [{ sha := "a1", message := "m1", author := "alice",
           author_email := none, date := "d1", parents := [] }] :=
  ⟨((commitList_author_filter _ "alice" (by decide)).2.1).trans (by decide),
   (commitList_author_filter _ "alice" (by decide)).1⟩

end Ragfs
